import Mathlib

/-!
Verification of the STED-simulation repository's core numeric pipeline.

Shallow embedding conventions:
* Python floats are modelled as exact rationals (`ℚ`) for the discrete,
  comparison-driven code (`validate_parameters`, `fwhm`) and as reals (`ℝ`)
  for the closed-form optics formulas (`gaussian_psf`,
  `laguerre_gaussian_donut`, `effective_psf`, `diffraction_limit`).
* A 2D NumPy array is a list of rows, `List (List ℚ)`.
* `np.max` / `np.min` over a possibly-empty array, which raise on empty
  input, are modelled by `Option`-valued folds (`listMax`, `listMin`).
* A Python `raise ValueError` in `validate_parameters` is modelled by
  `Except RangeViolation`, the error value carrying the pieces of the
  interpolated message (field name, offending value, expected bounds).
-/

namespace STED

/-! ## Option-valued list maximum / minimum (model of `np.max`, `np.min`) -/

def listMax {α : Type} [LinearOrder α] : List α → Option α
  | [] => none
  | a :: l =>
    match listMax l with
    | none => some a
    | some b => some (max a b)

def listMin {α : Type} [LinearOrder α] : List α → Option α
  | [] => none
  | a :: l =>
    match listMin l with
    | none => some a
    | some b => some (min a b)

theorem listMax_eq_none_iff {α : Type} [LinearOrder α] (l : List α) :
    listMax l = none ↔ l = [] := by
  cases l with
  | nil => simp [listMax]
  | cons a l =>
    simp only [listMax]
    cases listMax l <;> simp

theorem listMax_isSome {α : Type} [LinearOrder α] {l : List α} (h : l ≠ []) :
    ∃ m, listMax l = some m := by
  cases hl : listMax l with
  | none => exact absurd ((listMax_eq_none_iff l).mp hl) h
  | some m => exact ⟨m, rfl⟩

theorem listMax_mem {α : Type} [LinearOrder α] :
    ∀ {l : List α} {m : α}, listMax l = some m → m ∈ l := by
  intro l
  induction l with
  | nil => intro m h; simp [listMax] at h
  | cons a l ih =>
    intro m h
    simp only [listMax] at h
    cases hl : listMax l with
    | none =>
      rw [hl] at h
      simp at h
      simp [h]
    | some b =>
      rw [hl] at h
      simp at h
      rcases max_choice a b with hc | hc <;> rw [← h, hc]
      · simp
      · exact List.mem_cons_of_mem a (ih hl)

theorem le_listMax {α : Type} [LinearOrder α] :
    ∀ {l : List α} {m a : α}, listMax l = some m → a ∈ l → a ≤ m := by
  intro l
  induction l with
  | nil => intro m a _ ha; simp at ha
  | cons b l ih =>
    intro m a h ha
    simp only [listMax] at h
    cases hl : listMax l with
    | none =>
      rw [hl] at h
      simp at h
      rcases List.mem_cons.mp ha with hb | hb
      · simp [hb, ← h]
      · exact absurd ((listMax_eq_none_iff l).mp hl ▸ hb) (List.not_mem_nil a)
    | some c =>
      rw [hl] at h
      simp at h
      rcases List.mem_cons.mp ha with hb | hb
      · rw [← h, hb]; exact le_max_left b c
      · exact le_trans (le_trans (ih hl hb) (le_max_right b c)) (le_of_eq h)

theorem listMin_eq_none_iff {α : Type} [LinearOrder α] (l : List α) :
    listMin l = none ↔ l = [] := by
  cases l with
  | nil => simp [listMin]
  | cons a l =>
    simp only [listMin]
    cases listMin l <;> simp

theorem listMin_isSome {α : Type} [LinearOrder α] {l : List α} (h : l ≠ []) :
    ∃ m, listMin l = some m := by
  cases hl : listMin l with
  | none => exact absurd ((listMin_eq_none_iff l).mp hl) h
  | some m => exact ⟨m, rfl⟩

theorem listMin_mem {α : Type} [LinearOrder α] :
    ∀ {l : List α} {m : α}, listMin l = some m → m ∈ l := by
  intro l
  induction l with
  | nil => intro m h; simp [listMin] at h
  | cons a l ih =>
    intro m h
    simp only [listMin] at h
    cases hl : listMin l with
    | none =>
      rw [hl] at h
      simp at h
      simp [h]
    | some b =>
      rw [hl] at h
      simp at h
      rcases min_choice a b with hc | hc <;> rw [← h, hc]
      · simp
      · exact List.mem_cons_of_mem a (ih hl)

theorem listMin_le {α : Type} [LinearOrder α] :
    ∀ {l : List α} {m a : α}, listMin l = some m → a ∈ l → m ≤ a := by
  intro l
  induction l with
  | nil => intro m a _ ha; simp at ha
  | cons b l ih =>
    intro m a h ha
    simp only [listMin] at h
    cases hl : listMin l with
    | none =>
      rw [hl] at h
      simp at h
      rcases List.mem_cons.mp ha with hb | hb
      · simp [hb, ← h]
      · exact absurd ((listMin_eq_none_iff l).mp hl ▸ hb) (List.not_mem_nil a)
    | some c =>
      rw [hl] at h
      simp at h
      rcases List.mem_cons.mp ha with hb | hb
      · rw [← h, hb]; exact min_le_left b c
      · exact le_trans (le_of_eq h.symm) (le_trans (min_le_right b c) (ih hl hb))

/-! ## `src/start.py`: parameter record and `validate_parameters` -/

/-- The seven configuration parameters of `read_config_file` (`src/start.py`).
Floats are modelled as `ℚ`; `grid_size` and `extent_nm` are `int` in the code. -/
structure Params where
  lambda_exc : ℚ
  lambda_sted : ℚ
  NA : ℚ
  I_s : ℚ
  I0_sted : ℚ
  grid_size : ℤ
  extent_nm : ℤ
deriving DecidableEq

/-- The payload of the `ValueError` raised by `validate_parameters`
("Invalid {field} value: {value} (Expected: {lo}-{hi})"). -/
structure RangeViolation where
  fieldName : String
  value : ℚ
  lo : ℚ
  hi : ℚ
deriving DecidableEq

/-- `validate_parameters` (`src/start.py`, lines 39-57): sequential closed-interval
checks, raising on the first field out of range. -/
def validate_parameters (p : Params) : Except RangeViolation Unit :=
  if ¬ (400 ≤ p.lambda_exc ∧ p.lambda_exc ≤ 700) then
    .error ⟨"lambda_exc", p.lambda_exc, 400, 700⟩
  else if ¬ (710 ≤ p.lambda_sted ∧ p.lambda_sted ≤ 850) then
    .error ⟨"lambda_sted", p.lambda_sted, 710, 850⟩
  else if ¬ (0.5 ≤ p.NA ∧ p.NA ≤ 1.49) then
    .error ⟨"NA", p.NA, 0.5, 1.49⟩
  else if ¬ (0.1 ≤ p.I_s ∧ p.I_s ≤ 5.0) then
    .error ⟨"I_s", p.I_s, 0.1, 5.0⟩
  else if ¬ (0 ≤ p.I0_sted ∧ p.I0_sted ≤ 100) then
    .error ⟨"I0_sted", p.I0_sted, 0, 100⟩
  else if ¬ (256 ≤ p.grid_size ∧ p.grid_size ≤ 1000) then
    .error ⟨"grid_size", (p.grid_size : ℚ), 256, 1000⟩
  else if ¬ (500 ≤ p.extent_nm ∧ p.extent_nm ≤ 2000) then
    .error ⟨"extent_nm", (p.extent_nm : ℚ), 500, 2000⟩
  else .ok ()

/-- The seven checks of `validate_parameters` in source order, each as
(field name, checked value, lower bound, upper bound). -/
def checks (p : Params) : List (String × ℚ × ℚ × ℚ) :=
  [("lambda_exc", p.lambda_exc, 400, 700),
   ("lambda_sted", p.lambda_sted, 710, 850),
   ("NA", p.NA, 0.5, 1.49),
   ("I_s", p.I_s, 0.1, 5.0),
   ("I0_sted", p.I0_sted, 0, 100),
   ("grid_size", (p.grid_size : ℚ), 256, 1000),
   ("extent_nm", (p.extent_nm : ℚ), 500, 2000)]

/-- A single check passes when the value lies in its closed interval. -/
def checkOK (c : String × ℚ × ℚ × ℚ) : Bool :=
  decide (c.2.2.1 ≤ c.2.1 ∧ c.2.1 ≤ c.2.2.2)

/-- Helper: `validate_parameters` succeeds exactly when all seven in-range
conditions hold (with the integer checks read over `ℤ` as in the code). -/
theorem validate_ok_iff (p : Params) :
    validate_parameters p = .ok () ↔
      ((400 ≤ p.lambda_exc ∧ p.lambda_exc ≤ 700) ∧
       (710 ≤ p.lambda_sted ∧ p.lambda_sted ≤ 850) ∧
       (0.5 ≤ p.NA ∧ p.NA ≤ 1.49) ∧
       (0.1 ≤ p.I_s ∧ p.I_s ≤ 5.0) ∧
       (0 ≤ p.I0_sted ∧ p.I0_sted ≤ 100) ∧
       (256 ≤ p.grid_size ∧ p.grid_size ≤ 1000) ∧
       (500 ≤ p.extent_nm ∧ p.extent_nm ≤ 2000)) := by
  unfold validate_parameters
  split_ifs with h1 h2 h3 h4 h5 h6 h7 <;>
    simp_all

/-- A spec-side rendering of the validator: scan the checks in order and
report the first failing one as a `RangeViolation`. -/
def validate_model (p : Params) : Except RangeViolation Unit :=
  match (checks p).find? (fun c => ! checkOK c) with
  | some c => .error ⟨c.1, c.2.1, c.2.2.1, c.2.2.2⟩
  | none => .ok ()

/-- Helper: the sequential if-chain of `validate_parameters` computes the
spec-side first-failing-check scan. -/
theorem validate_eq_model (p : Params) :
    validate_parameters p = validate_model p := by
  unfold validate_parameters validate_model checks checkOK
  split_ifs with h1 h2 h3 h4 h5 h6 h7
  · have h6q : (256:ℚ) ≤ (p.grid_size:ℚ) ∧ (p.grid_size:ℚ) ≤ 1000 := by exact_mod_cast h6
    have h7q : (500:ℚ) ≤ (p.extent_nm:ℚ) ∧ (p.extent_nm:ℚ) ≤ 2000 := by exact_mod_cast h7
    simp [List.find?, h1.1, h1.2, h2.1, h2.2, h3.1, h3.2, h4.1, h4.2, h5.1, h5.2,
      h6q.1, h6q.2, h7q.1, h7q.2]
  · have h6q : (256:ℚ) ≤ (p.grid_size:ℚ) ∧ (p.grid_size:ℚ) ≤ 1000 := by exact_mod_cast h6
    have h7q : ¬((500:ℚ) ≤ (p.extent_nm:ℚ) ∧ (p.extent_nm:ℚ) ≤ 2000) := by exact_mod_cast h7
    simp [List.find?, h1.1, h1.2, h2.1, h2.2, h3.1, h3.2, h4.1, h4.2, h5.1, h5.2,
      h6q.1, h6q.2, ← Bool.not_and, ← Bool.decide_and, h7q]
  · have h6q : ¬((256:ℚ) ≤ (p.grid_size:ℚ) ∧ (p.grid_size:ℚ) ≤ 1000) := by exact_mod_cast h6
    simp [List.find?, h1.1, h1.2, h2.1, h2.2, h3.1, h3.2, h4.1, h4.2, h5.1, h5.2,
      ← Bool.not_and, ← Bool.decide_and, h6q]
  · simp [List.find?, h1.1, h1.2, h2.1, h2.2, h3.1, h3.2, h4.1, h4.2,
      ← Bool.not_and, ← Bool.decide_and, h5]
  · simp [List.find?, h1.1, h1.2, h2.1, h2.2, h3.1, h3.2,
      ← Bool.not_and, ← Bool.decide_and, h4]
  · simp [List.find?, h1.1, h1.2, h2.1, h2.2,
      ← Bool.not_and, ← Bool.decide_and, h3]
  · simp [List.find?, h1.1, h1.2,
      ← Bool.not_and, ← Bool.decide_and, h2]
  · simp [List.find?, ← Bool.not_and, ← Bool.decide_and, h1]

/-- C3: `validate_parameters` succeeds exactly when all seven fields lie in
their closed intervals (boundary values included), and on failure it reports
the first out-of-range field, in source order, together with the offending
value and the expected bounds. -/
theorem validate_parameters_spec (p : Params) :
    (validate_parameters p = .ok () ↔ ∀ c ∈ checks p, checkOK c = true) ∧
    (∀ e : RangeViolation,
      validate_parameters p = .error e ↔
        (checks p).find? (fun c => ! checkOK c) =
          some (e.fieldName, e.value, e.lo, e.hi)) := by
  rw [validate_eq_model]
  unfold validate_model
  cases hf : (checks p).find? (fun c => ! checkOK c) with
  | none =>
    have hall := List.find?_eq_none.mp hf
    constructor
    · constructor
      · intro _ c hc
        have := hall c hc
        simpa using this
      · intro _; rfl
    · intro e
      simp
  | some c =>
    have hcfail := List.find?_some hf
    have hcmem : c ∈ checks p := List.mem_of_find?_eq_some hf
    obtain ⟨c1, c2, c3, c4⟩ := c
    constructor
    · constructor
      · intro h; exact absurd h (by simp)
      · intro hall
        have := hall _ hcmem
        rw [this] at hcfail
        simp at hcfail
    · intro e
      obtain ⟨ef, ev, el, eh⟩ := e
      simp [Prod.ext_iff, RangeViolation.mk.injEq]

/-- Concrete parameter set at the documented lower boundaries of all seven
ranges. -/
def pBoundary : Params := ⟨400, 710, 0.5, 0.1, 0, 256, 500⟩

/-- Concrete parameter set whose first out-of-range field (in source order)
is `NA`. -/
def pBadNA : Params := ⟨650, 750, 2, 2, 25, 500, 1000⟩

/-- Witness for C3: boundary values are accepted, and the `NA`-violating set
is rejected with an error naming `NA`, its value and bounds. -/
theorem validate_parameters_spec_witness :
    validate_parameters pBoundary = .ok () ∧
    validate_parameters pBadNA = .error ⟨"NA", 2, 0.5, 1.49⟩ :=
  ⟨(validate_parameters_spec pBoundary).1.mpr
    (by norm_num [checks, checkOK, pBoundary]),
   ((validate_parameters_spec pBadNA).2 ⟨"NA", 2, 0.5, 1.49⟩).mpr
    (by norm_num [checks, checkOK, pBadNA, List.find?])⟩

/-- C9: any parameter set accepted by `validate_parameters` satisfies
`lambda_exc < lambda_sted`, because the accepted ranges `[400, 700]` and
`[710, 850]` are disjoint, even though no explicit cross-field check exists. -/
theorem validate_ok_lambda_order (p : Params)
    (h : validate_parameters p = .ok ()) : p.lambda_exc < p.lambda_sted := by
  obtain ⟨⟨-, hexc⟩, ⟨hsted, -⟩, -⟩ := (validate_ok_iff p).mp h
  calc p.lambda_exc ≤ 700 := hexc
    _ < 710 := by norm_num
    _ ≤ p.lambda_sted := hsted

/-- Witness for C9 at the boundary parameter set. -/
theorem validate_ok_lambda_order_witness :
    pBoundary.lambda_exc < pBoundary.lambda_sted :=
  validate_ok_lambda_order pBoundary
    ((validate_ok_iff pBoundary).mpr (by norm_num [pBoundary]))

/-! ## `src/source/psf_functions.py`: the three PSF generators -/

/-- `gaussian_psf(x, y, w0)` (`src/source/psf_functions.py`, lines 3-16):
`np.exp(-(x**2 + y**2) / w0**2)` at one grid point. -/
noncomputable def gaussian_psf (x y w0 : ℝ) : ℝ :=
  Real.exp (-(x ^ 2 + y ^ 2) / w0 ^ 2)

/-- `laguerre_gaussian_donut(x, y, w, m)` (`src/source/psf_functions.py`,
lines 18-36): `(r2 / w**2)**m * np.exp(-r2 / w**2)` with `r2 = x**2 + y**2`. -/
noncomputable def laguerre_gaussian_donut (x y w : ℝ) (m : ℕ) : ℝ :=
  let r2 := x ^ 2 + y ^ 2
  (r2 / w ^ 2) ^ m * Real.exp (-r2 / w ^ 2)

/-- The Python default `m=1` of `laguerre_gaussian_donut`; `main.py` calls the
function without an `m` argument. -/
noncomputable def laguerre_gaussian_donut_default (x y w : ℝ) : ℝ :=
  laguerre_gaussian_donut x y w 1

/-- `effective_psf(exc_psf, sted_psf, I_s, I0_sted)`
(`src/source/psf_functions.py`, lines 38-57):
`exc_psf * np.exp(-I0_sted * sted_psf / I_s)` at one grid point. -/
noncomputable def effective_psf (exc_psf sted_psf I_s I0_sted : ℝ) : ℝ :=
  exc_psf * Real.exp (-I0_sted * sted_psf / I_s)

/-- `diffraction_limit(wavelength, NA)` (`src/source/resolution_functions.py`,
lines 29-49): `wavelength / (2 * NA)`. -/
noncomputable def diffraction_limit (wavelength NA : ℝ) : ℝ :=
  wavelength / (2 * NA)

/-- C5: the excitation PSF is `exp(-(x^2+y^2)/w0^2)`; it is `1` at the origin,
strictly decreasing in the radius `sqrt(x^2+y^2)`, and equals `1/e` at radial
distance `w0`. -/
theorem gaussian_psf_spec (x y w0 : ℝ) (hw0 : 0 < w0) :
    gaussian_psf x y w0 = Real.exp (-(x ^ 2 + y ^ 2) / w0 ^ 2) ∧
    gaussian_psf 0 0 w0 = 1 ∧
    (∀ x1 y1 x2 y2 : ℝ,
      Real.sqrt (x1 ^ 2 + y1 ^ 2) < Real.sqrt (x2 ^ 2 + y2 ^ 2) →
      gaussian_psf x2 y2 w0 < gaussian_psf x1 y1 w0) ∧
    (Real.sqrt (x ^ 2 + y ^ 2) = w0 → gaussian_psf x y w0 = (Real.exp 1)⁻¹) := by
  have hw2 : (0:ℝ) < w0 ^ 2 := by positivity
  refine ⟨rfl, by simp [gaussian_psf], ?_, ?_⟩
  · intro x1 y1 x2 y2 hr
    have hlt : x1 ^ 2 + y1 ^ 2 < x2 ^ 2 + y2 ^ 2 := by
      by_contra hle
      push_neg at hle
      exact absurd (Real.sqrt_le_sqrt hle) (not_le.mpr hr)
    unfold gaussian_psf
    apply Real.exp_lt_exp.mpr
    apply div_lt_div_of_pos_right _ hw2
    · linarith
  · intro hr
    have hr2 : x ^ 2 + y ^ 2 = w0 ^ 2 := by
      have h1 : Real.sqrt (x ^ 2 + y ^ 2) ^ 2 = x ^ 2 + y ^ 2 :=
        Real.sq_sqrt (by positivity)
      rw [← h1, hr]
    unfold gaussian_psf
    rw [hr2, neg_div, div_self (ne_of_gt hw2), Real.exp_neg]

/-- Witness for C5 at `w0 = 1`: origin value `1`, and strict radial decrease
from the origin to `(1, 0)`. -/
theorem gaussian_psf_spec_witness :
    gaussian_psf 0 0 1 = 1 ∧ gaussian_psf 1 0 1 < gaussian_psf 0 0 1 := by
  have h := gaussian_psf_spec 0 0 1 (by norm_num)
  refine ⟨h.2.1, h.2.2.1 0 0 1 0 ?_⟩
  simp

/-- C6: the depletion PSF is `(r2/w^2)^m * exp(-r2/w^2)` with `r2 = x^2+y^2`;
for `m ≥ 1` it vanishes at the origin and is strictly positive at every point
of nonzero radius, and omitting `m` means `m = 1`. -/
theorem laguerre_gaussian_donut_spec (x y w : ℝ) (m : ℕ) (hw : 0 < w)
    (hm : 1 ≤ m) :
    laguerre_gaussian_donut x y w m =
      ((x ^ 2 + y ^ 2) / w ^ 2) ^ m * Real.exp (-(x ^ 2 + y ^ 2) / w ^ 2) ∧
    laguerre_gaussian_donut 0 0 w m = 0 ∧
    (x ^ 2 + y ^ 2 ≠ 0 → 0 < laguerre_gaussian_donut x y w m) ∧
    laguerre_gaussian_donut_default x y w = laguerre_gaussian_donut x y w 1 := by
  have hw2 : (0:ℝ) < w ^ 2 := by positivity
  refine ⟨rfl, ?_, ?_, rfl⟩
  · unfold laguerre_gaussian_donut
    simp [zero_pow (Nat.one_le_iff_ne_zero.mp hm)]
  · intro hr
    have hr2 : 0 < x ^ 2 + y ^ 2 :=
      lt_of_le_of_ne (by positivity) (Ne.symm hr)
    unfold laguerre_gaussian_donut
    have h1 : 0 < ((x ^ 2 + y ^ 2) / w ^ 2) ^ m :=
      pow_pos (div_pos hr2 hw2) m
    exact mul_pos h1 (Real.exp_pos _)

/-- Witness for C6 at `w = 1`, `m = 1`: zero at the origin, positive at
`(1, 0)`. -/
theorem laguerre_gaussian_donut_spec_witness :
    laguerre_gaussian_donut 0 0 1 1 = 0 ∧ 0 < laguerre_gaussian_donut 1 0 1 1 := by
  have h := laguerre_gaussian_donut_spec 1 0 1 1 (by norm_num) (by norm_num)
  exact ⟨(laguerre_gaussian_donut_spec 0 0 1 1 (by norm_num) (by norm_num)).2.1,
    h.2.2.1 (by norm_num)⟩

/-- C7: the effective PSF is `exc * exp(-I0_sted * depl / I_s)` pointwise; it
coincides with the excitation PSF wherever the depletion field is `0`, and for
fixed depletion `> 0` it tends to `0` as `I0_sted → ∞`. -/
theorem effective_psf_spec (exc depl I_s : ℝ) (hIs : 0 < I_s) :
    (∀ I0_sted : ℝ, effective_psf exc depl I_s I0_sted =
      exc * Real.exp (-I0_sted * depl / I_s)) ∧
    (∀ I0_sted : ℝ, effective_psf exc 0 I_s I0_sted = exc) ∧
    (0 < depl →
      Filter.Tendsto (fun I0_sted : ℝ => effective_psf exc depl I_s I0_sted)
        Filter.atTop (nhds 0)) := by
  refine ⟨fun _ => rfl, fun I0_sted => by simp [effective_psf], ?_⟩
  intro hd
  have harg : Filter.Tendsto (fun I0_sted : ℝ => -I0_sted * depl / I_s)
      Filter.atTop Filter.atBot := by
    have h1 : Filter.Tendsto (fun I0_sted : ℝ => I0_sted * (depl / I_s))
        Filter.atTop Filter.atTop :=
      Filter.Tendsto.atTop_mul_const (div_pos hd hIs) Filter.tendsto_id
    have h2 := Filter.tendsto_neg_atTop_atBot.comp h1
    refine h2.congr (fun I0_sted => ?_)
    simp only [Function.comp]
    ring
  have hexp : Filter.Tendsto
      (fun I0_sted : ℝ => Real.exp (-I0_sted * depl / I_s))
      Filter.atTop (nhds 0) := Real.tendsto_exp_atBot.comp harg
  have := hexp.const_mul exc
  rw [mul_zero] at this
  exact this

/-- Witness for C7 at `exc = 1`, `depl = 0`, `I_s = 1`: the effective PSF
equals the excitation value. -/
theorem effective_psf_spec_witness : effective_psf 1 0 1 5 = 1 :=
  (effective_psf_spec 1 0 1 (by norm_num)).2.1 5

/-- C8: `diffraction_limit` computes `wavelength / (2 * NA)` and is strictly
positive for positive wavelength and NA. -/
theorem diffraction_limit_spec (wavelength NA : ℝ) (hw : 0 < wavelength)
    (hNA : 0 < NA) :
    diffraction_limit wavelength NA = wavelength / (2 * NA) ∧
    0 < diffraction_limit wavelength NA :=
  ⟨rfl, div_pos hw (by positivity)⟩

/-- Witness for C8 at `wavelength = 650`, `NA = 1.3`. -/
theorem diffraction_limit_spec_witness : 0 < diffraction_limit 650 1.3 :=
  (diffraction_limit_spec 650 1.3 (by norm_num) (by norm_num)).2

/-- C10: for a nonnegative excitation value, nonnegative depletion value,
positive saturation intensity and nonnegative depletion peak intensity, the
effective PSF is nonnegative and never exceeds the excitation value. -/
theorem effective_psf_bounds (exc depl I_s I0_sted : ℝ) (hexc : 0 ≤ exc)
    (hdepl : 0 ≤ depl) (hIs : 0 < I_s) (hI0 : 0 ≤ I0_sted) :
    0 ≤ effective_psf exc depl I_s I0_sted ∧
    effective_psf exc depl I_s I0_sted ≤ exc := by
  unfold effective_psf
  constructor
  · exact mul_nonneg hexc (Real.exp_pos _).le
  · have harg : -I0_sted * depl / I_s ≤ 0 := by
      apply div_nonpos_of_nonpos_of_nonneg _ hIs.le
      have : 0 ≤ I0_sted * depl := mul_nonneg hI0 hdepl
      nlinarith
    have hexp : Real.exp (-I0_sted * depl / I_s) ≤ 1 := Real.exp_le_one_iff.mpr harg
    calc exc * Real.exp (-I0_sted * depl / I_s) ≤ exc * 1 :=
          mul_le_mul_of_nonneg_left hexp hexc
      _ = exc := mul_one exc

/-- Witness for C10 at `exc = 1`, `depl = 1`, `I_s = 1`, `I0_sted = 2`. -/
theorem effective_psf_bounds_witness :
    0 ≤ effective_psf 1 1 1 2 ∧ effective_psf 1 1 1 2 ≤ 1 :=
  effective_psf_bounds 1 1 1 2 (by norm_num) (by norm_num) (by norm_num)
    (by norm_num)

/-! ## `src/source/resolution_functions.py`: `fwhm` -/

/-- The row indices selected by `np.where(psf >= half_max)[0]`: the indices of
the rows that contain at least one entry `≥ half_max` (each such row index is
what `np.max`/`np.min` of the first `where`-axis ranges over). -/
def qualRows (psf : List (List ℚ)) (half_max : ℚ) : List ℕ :=
  (List.range psf.length).filter
    (fun i => (psf.getD i []).any (fun v => decide (half_max ≤ v)))

/-- `fwhm(psf)` (`src/source/resolution_functions.py`, lines 5-23):
`psf_max = np.max(psf)`; `half_max = psf_max / 2`;
`indices = np.where(psf >= half_max)`;
`np.max(indices[0]) - np.min(indices[0])`.
`np.max` raising on an empty array is modelled by `none`. -/
def fwhm (psf : List (List ℚ)) : Option ℤ :=
  match listMax psf.flatten with
  | none => none
  | some psf_max =>
    let half_max := psf_max / 2
    let rows := qualRows psf half_max
    match listMax rows, listMin rows with
    | some hi, some lo => some ((hi : ℤ) - (lo : ℤ))
    | _, _ => none

example : fwhm [[1, 0], [0, 0]] = some 0 := by
  norm_num [fwhm, listMax, listMin, qualRows, List.range_succ]

example : fwhm [[0, 0], [0, 0]] = some 1 := by
  norm_num [fwhm, listMax, listMin, qualRows, List.range_succ]

example : fwhm [[0, 1], [0, 1], [1, 0]] = some 2 := by
  norm_num [fwhm, listMax, listMin, qualRows, List.range_succ]

example : fwhm ([] : List (List ℚ)) = none := by
  norm_num [fwhm, listMax]

/-- Membership in the qualifying-row list: row `i` exists and contains an
entry `≥ half_max`. -/
theorem mem_qualRows (psf : List (List ℚ)) (h : ℚ) (i : ℕ) :
    i ∈ qualRows psf h ↔ i < psf.length ∧ ∃ v ∈ psf.getD i [], h ≤ v := by
  unfold qualRows
  simp [List.mem_filter, List.mem_range, List.any_eq_true]

/-- Helper: on a non-empty field of nonnegative entries, `fwhm` returns the
span between the greatest and the least row index holding an entry at or
above half of the field's maximum. -/
theorem fwhm_characterization (psf : List (List ℚ))
    (hne : psf.flatten ≠ []) (hnn : ∀ v ∈ psf.flatten, 0 ≤ v) :
    ∃ mx : ℚ, ∃ hi lo : ℕ,
      IsGreatest {v : ℚ | v ∈ psf.flatten} mx ∧
      IsGreatest {i : ℕ | i < psf.length ∧ ∃ v ∈ psf.getD i [], mx / 2 ≤ v} hi ∧
      IsLeast {i : ℕ | i < psf.length ∧ ∃ v ∈ psf.getD i [], mx / 2 ≤ v} lo ∧
      fwhm psf = some ((hi : ℤ) - (lo : ℤ)) := by
  obtain ⟨mx, hmx⟩ := listMax_isSome hne
  have hmxmem : mx ∈ psf.flatten := listMax_mem hmx
  have hmx0 : 0 ≤ mx := hnn mx hmxmem
  have hhalf : mx / 2 ≤ mx := by linarith
  obtain ⟨row, hrowmem, hmxrow⟩ := List.mem_flatten.mp hmxmem
  obtain ⟨i, hilen, hieq⟩ := List.mem_iff_getElem.mp hrowmem
  have hgetD : psf.getD i [] = row := by
    rw [List.getD_eq_getElem?_getD, List.getElem?_eq_getElem hilen, hieq]
    rfl
  have hiqual : i ∈ qualRows psf (mx / 2) := by
    rw [mem_qualRows]
    exact ⟨hilen, ⟨mx, by rw [hgetD]; exact hmxrow, hhalf⟩⟩
  have hne2 : qualRows psf (mx / 2) ≠ [] := by
    intro h
    rw [h] at hiqual
    exact List.not_mem_nil i hiqual
  obtain ⟨hi, hhi⟩ := listMax_isSome hne2
  obtain ⟨lo, hlo⟩ := listMin_isSome hne2
  refine ⟨mx, hi, lo, ⟨hmxmem, fun v hv => le_listMax hmx hv⟩, ?_, ?_, ?_⟩
  · exact ⟨(mem_qualRows _ _ _).mp (listMax_mem hhi),
      fun j hj => le_listMax hhi ((mem_qualRows _ _ _).mpr hj)⟩
  · exact ⟨(mem_qualRows _ _ _).mp (listMin_mem hlo),
      fun j hj => listMin_le hlo ((mem_qualRows _ _ _).mpr hj)⟩
  · unfold fwhm
    rw [hmx]
    simp only [hhi, hlo]

/-- C4: for a non-empty field (of nonnegative intensities), `fwhm` equals the
greatest minus the least row index among the grid positions whose value is at
least `max(field)/2` — an index span in grid units. -/
theorem fwhm_spec (psf : List (List ℚ)) (hne : psf.flatten ≠ [])
    (hnn : ∀ v ∈ psf.flatten, 0 ≤ v) :
    ∃ mx : ℚ, ∃ hi lo : ℕ,
      IsGreatest {v : ℚ | v ∈ psf.flatten} mx ∧
      IsGreatest {i : ℕ | i < psf.length ∧ ∃ v ∈ psf.getD i [], mx / 2 ≤ v} hi ∧
      IsLeast {i : ℕ | i < psf.length ∧ ∃ v ∈ psf.getD i [], mx / 2 ≤ v} lo ∧
      fwhm psf = some ((hi : ℤ) - (lo : ℤ)) :=
  fwhm_characterization psf hne hnn

/-- Witness for C4 at the field `[[0,1],[0,1],[1,0]]` (span `2`). -/
theorem fwhm_spec_witness :
    (([[0, 1], [0, 1], [1, 0]] : List (List ℚ)).flatten ≠ [] ∧
      ∀ v ∈ ([[0, 1], [0, 1], [1, 0]] : List (List ℚ)).flatten, (0:ℚ) ≤ v) ∧
    (∃ mx : ℚ, ∃ hi lo : ℕ,
      IsGreatest {v : ℚ | v ∈ ([[0, 1], [0, 1], [1, 0]] : List (List ℚ)).flatten} mx ∧
      IsGreatest {i : ℕ | i < ([[0, 1], [0, 1], [1, 0]] : List (List ℚ)).length ∧
        ∃ v ∈ ([[0, 1], [0, 1], [1, 0]] : List (List ℚ)).getD i [], mx / 2 ≤ v} hi ∧
      IsLeast {i : ℕ | i < ([[0, 1], [0, 1], [1, 0]] : List (List ℚ)).length ∧
        ∃ v ∈ ([[0, 1], [0, 1], [1, 0]] : List (List ℚ)).getD i [], mx / 2 ≤ v} lo ∧
      fwhm [[0, 1], [0, 1], [1, 0]] = some ((hi : ℤ) - (lo : ℤ))) :=
  ⟨⟨by simp, by norm_num⟩, fwhm_spec _ (by simp) (by norm_num)⟩

/-- Counterexample to C1 as stated: `[[1,0],[0,0]]` is non-empty, has only
nonnegative entries and is not all-zero, yet `fwhm` returns `0`, which is not
strictly positive. Only one grid position reaches half-max, so the index span
degenerates. -/
theorem fwhm_not_strictly_pos_cex :
    ([[1, 0], [0, 0]] : List (List ℚ)).flatten ≠ [] ∧
    (∀ v ∈ ([[1, 0], [0, 0]] : List (List ℚ)).flatten, (0:ℚ) ≤ v) ∧
    (∃ v ∈ ([[1, 0], [0, 0]] : List (List ℚ)).flatten, v ≠ 0) ∧
    fwhm [[1, 0], [0, 0]] = some 0 ∧ ¬ ((0:ℤ) < 0) := by
  refine ⟨by simp, by norm_num, ⟨1, by norm_num⟩, ?_, by norm_num⟩
  norm_num [fwhm, listMax, listMin, qualRows, List.range_succ]

/-- C1 (amended): for every non-degenerate (non-empty, nonnegative, not
all-zero) field, `fwhm` returns a numeric span that is nonnegative — though
not necessarily strictly positive — and strictly less than the number of rows
(`grid_size` for a square field). -/
theorem fwhm_nonneg_lt_gridsize (psf : List (List ℚ))
    (hne : psf.flatten ≠ []) (hnn : ∀ v ∈ psf.flatten, 0 ≤ v)
    (hnz : ∃ v ∈ psf.flatten, v ≠ 0) :
    ∃ d : ℤ, fwhm psf = some d ∧ 0 ≤ d ∧ d < (psf.length : ℤ) := by
  obtain ⟨mx, hi, lo, hmx, hhi, hlo, heq⟩ := fwhm_characterization psf hne hnn
  refine ⟨(hi : ℤ) - (lo : ℤ), heq, ?_, ?_⟩
  · have hle : lo ≤ hi := hlo.2 hhi.1
    omega
  · have hlen : hi < psf.length := hhi.1.1
    omega

/-- Witness for C1 (amended) at the field `[[1,0],[0,0]]`: span `0`, with
`0 ≤ 0 < 2`. -/
theorem fwhm_nonneg_lt_gridsize_witness :
    ∃ d : ℤ, fwhm [[1, 0], [0, 0]] = some d ∧ 0 ≤ d ∧
      d < (([[1, 0], [0, 0]] : List (List ℚ)).length : ℤ) :=
  fwhm_nonneg_lt_gridsize [[1, 0], [0, 0]] (by simp) (by norm_num)
    ⟨1, by norm_num⟩

/-- C2 (code behaviour at the failing input): `fwhm` has no degenerate-field
handling; on the all-zero field `[[0,0],[0,0]]` the half-max is `0`, every
grid position qualifies, and the code returns the numeric span
`grid_size - 1 = 1` instead of reporting an `UndefinedResolution` error. -/
theorem fwhm_all_zero_returns_span :
    (∀ v ∈ ([[0, 0], [0, 0]] : List (List ℚ)).flatten, v = 0) ∧
    fwhm [[0, 0], [0, 0]] = some 1 := by
  refine ⟨by norm_num, ?_⟩
  norm_num [fwhm, listMax, listMin, qualRows, List.range_succ]

end STED
